import Mathlib

/-!
Verification of the cozybookshelf layout engine, data provider and admin
session guard.  The definitions below are a shallow embedding of the
TypeScript source (`src/frontend/src/components/BookshelfDisplay.tsx` and
the context providers): JavaScript numbers are modelled as rationals,
nullable fields as `Option`, and asynchronous fetch/validation outcomes as
explicit parameters.
-/

namespace CozyBookshelf

/-- A positioned rectangle paired with the item it places
(`{ book, x, y, width, height }` in the source). -/
structure Placed (α : Type) where
  book : α
  x : ℚ
  y : ℚ
  width : ℚ
  height : ℚ
  deriving DecidableEq

/-- The nested `books` record: only the field the layout engine reads. -/
structure BookInner where
  pages : Option Nat
  deriving DecidableEq

/-- A user-book row as consumed by the layout engine and the data
provider.  `dateFinished` is the parsed epoch value of `date_finished`
(`none` when the field is absent). -/
structure BookRec where
  books : BookInner
  status : String
  dateFinished : Option Int
  deriving DecidableEq

/-- Intrinsic aspect ratio of `background_new.png` (`2496 / 1664`). -/
def aspectRatio : ℚ := 2496 / 1664

/-- Horizontal-mode remap of a full-image Y percentage into the visible
bottom 75% of the image: `Math.max(0, (y - 25) / 0.75)`. -/
def adjustYH (y : ℚ) : ℚ := max 0 ((y - 25) / 0.75)

/-- Cover anchor points `(x%, y%)` for horizontal mode. -/
def coverAnchorsH : List (ℚ × ℚ) := [(52, 77), (33, 76), (70, 55)]

/-- Cover anchor points `(x%, y%)` for vertical mode. -/
def coverAnchorsV : List (ℚ × ℚ) := [(51.5, 77), (37.5, 75.5), (70, 57)]

/-- `calculateBookPositions` from `BookshelfDisplay.tsx` (lines 141-255).
In the vertical branch the source writes `imageWidth * x / 100` and
`imageHeight * y / 100`, where `imageWidth = vh * aspectRatio` and
`imageHeight = vh`, so both branches share the factors written here. -/
def calculateBookPositions (vw vh cw ch : ℚ)
    (currentlyReading : List BookRec) : List (Placed BookRec) :=
  if cw = 0 ∨ ch = 0 ∨ currentlyReading = [] then []
  else
    let viewportAspect := vw / vh
    let horizontal := 1 < viewportAspect
    let bookHeight := if horizontal then vh * 0.27 else vh * 0.2
    let bookWidth := bookHeight * 0.65
    let anchors := if horizontal then coverAnchorsH else coverAnchorsV
    let imageOffsetX := (cw - vh * aspectRatio) / 2
    let imageOffsetY : ℚ := 0
    (currentlyReading.zip anchors).map fun bp =>
      let x := imageOffsetX + (vh * aspectRatio) * bp.2.1 / 100 - bookWidth / 2
      let y :=
        if horizontal then
          imageOffsetY + vh * adjustYH bp.2.2 / 100 - bookHeight / 2
        else
          imageOffsetY + vh * bp.2.2 / 100 - bookHeight / 2
      ⟨bp.1, max 0 x, max 0 y, bookWidth, bookHeight⟩

/-- `pageCount || 200`: JavaScript `||` substitutes the default both when
the count is absent and when it is `0` (falsy). -/
def effectivePages (pageCount : Option Nat) : Nat :=
  match pageCount with
  | none => 200
  | some p => if p = 0 then 200 else p

/-- Width multiplier of `calculateSpineDimensions`: `0.012` up to 100
pages, `0.045` from 700 pages, linear interpolation in between. -/
def widthMultiplier (pages : ℚ) : ℚ :=
  if pages ≤ 100 then 0.012
  else if 700 ≤ pages then 0.045
  else 0.012 + (0.045 - 0.012) * ((pages - 100) / (700 - 100))

/-- `calculateSpineDimensions` (lines 258-295): returns
`(spineWidth, spineHeight)`; the vertical branch scales both by `0.7`. -/
def calculateSpineDimensions (pageCount : Option Nat)
    (viewportAspect vh : ℚ) : ℚ × ℚ :=
  let pages : ℚ := (effectivePages pageCount : ℚ)
  let widthMult := widthMultiplier pages
  let heightVariation : ℚ := ((effectivePages pageCount % 40 : ℕ) : ℚ) / 1600
  let heightMult := 0.115 + heightVariation
  if 1 < viewportAspect then (vh * widthMult, vh * heightMult)
  else (vh * widthMult * 0.7, vh * heightMult * 0.7)

/-- One shelf band: a Y percentage plus a startX/endX percentage range. -/
structure Shelf where
  y : ℚ
  startX : ℚ
  endX : ℚ
  deriving DecidableEq

/-- Horizontal-mode shelf bands (`shelfPositions`, lines 331-335). -/
def shelfPositionsH : List Shelf :=
  [⟨51.5, 40, 85⟩, ⟨65, 40, 85⟩, ⟨85, 40, 85⟩]

/-- Vertical-mode shelf bands (`shelfPositions`, lines 338-343). -/
def shelfPositionsV : List Shelf :=
  [⟨51, 42.5, 85⟩, ⟨50, 42.5, 85⟩, ⟨65, 42.5, 85⟩, ⟨80, 42.5, 85⟩]

/-- A spine is either the admin pseudo-spine or a real book. -/
inductive SpineBook where
  | admin : SpineBook
  | real : BookRec → SpineBook
  deriving DecidableEq

/-- The JS sort comparator `dateA - dateB` (a missing `date_finished` is
`Infinity`), read as the boolean "a sorts no later than b". -/
def dateLe (a b : BookRec) : Bool :=
  match a.dateFinished, b.dateFinished with
  | none, none => true
  | none, some _ => false
  | some _, none => true
  | some x, some y => x ≤ y

/-- `imageReferenceWidth` (line 405): in the vertical branch the source
uses `imageWidth`, which equals `vh * aspectRatio` there as well. -/
def imageReferenceWidth (viewportAspect vh : ℚ) : ℚ :=
  if 1 < viewportAspect then vh * aspectRatio else vh * aspectRatio

/-- Mutable loop state of the packing loop in
`calculateBookSpinePositions` (lines 392-396), plus the accumulated
output list. -/
structure PackState where
  shelfIndex : Nat
  xPos : ℚ
  booksOnShelf : Nat
  positions : List (Placed SpineBook)
  deriving DecidableEq

/-- One iteration of the `bookSpineDimensions.forEach` body
(lines 398-461).  The early `return` when `currentShelfIndex` has passed
the last shelf skips the item; a wrap that runs out of shelves records
the incremented index and drops the item. -/
def packStep (shelves : List Shelf) (viewportAspect vh cw : ℚ)
    (st : PackState) (item : SpineBook × ℚ × ℚ) : PackState :=
  if hIdx : st.shelfIndex < shelves.length then
    let book := item.1
    let spineWidth := item.2.1
    let spineHeight := item.2.2
    let currentShelf := shelves.get ⟨st.shelfIndex, hIdx⟩
    let refW := imageReferenceWidth viewportAspect vh
    let spineWidthPercentage := spineWidth / refW * 100
    let spineRightEdge := st.xPos + spineWidthPercentage
    let place := fun (idx : Nat) (h : idx < shelves.length)
        (xPos : ℚ) (onShelf : Nat) =>
      let shelf := shelves.get ⟨idx, h⟩
      let spineCenterX := xPos + spineWidthPercentage / 2
      let imageOffsetX := (cw - vh * aspectRatio) / 2
      let x := imageOffsetX + (vh * aspectRatio) * spineCenterX / 100
        - spineWidth / 2
      let y :=
        if 1 < viewportAspect then
          vh * adjustYH shelf.y / 100 - spineHeight
        else
          vh * shelf.y / 100 - spineHeight
      let tinySpacingPercentage := 3 / refW * 100
      { shelfIndex := idx
        xPos := xPos + spineWidthPercentage + tinySpacingPercentage
        booksOnShelf := onShelf + 1
        positions :=
          st.positions ++ [⟨book, max 0 x, max 0 y, spineWidth, spineHeight⟩] }
    if currentShelf.endX < spineRightEdge ∧ 0 < st.booksOnShelf then
      if hNext : st.shelfIndex + 1 < shelves.length then
        place (st.shelfIndex + 1) hNext
          (shelves.get ⟨st.shelfIndex + 1, hNext⟩).startX 0
      else
        { st with shelfIndex := st.shelfIndex + 1 }
    else
      place st.shelfIndex hIdx st.xPos st.booksOnShelf
  else st

/-- The admin pseudo-spine with its fixed size multipliers
(lines 383-389). -/
def adminSpineItem (viewportAspect vh : ℚ) : SpineBook × ℚ × ℚ :=
  ( SpineBook.admin,
    if 1 < viewportAspect then vh * 0.025 else vh * 0.025 * 0.7,
    if 1 < viewportAspect then vh * 0.12 else vh * 0.12 * 0.7 )

/-- `calculateBookSpinePositions` (lines 298-464). -/
def calculateBookSpinePositions (vw vh cw ch : ℚ)
    (readBooks : List BookRec) (isAdmin : Bool) : List (Placed SpineBook) :=
  if cw = 0 ∨ ch = 0 then []
  else if isAdmin = false ∧ readBooks = [] then []
  else
    let viewportAspect := vw / vh
    let shelves := if 1 < viewportAspect then shelfPositionsH else shelfPositionsV
    let sortedReadBooks := readBooks.mergeSort dateLe
    let bookSpineDimensions := sortedReadBooks.map fun b =>
      (SpineBook.real b, calculateSpineDimensions b.books.pages viewportAspect vh)
    let items :=
      if isAdmin then adminSpineItem viewportAspect vh :: bookSpineDimensions
      else bookSpineDimensions
    let startX := (shelves.headD ⟨0, 0, 0⟩).startX
    (items.foldl (packStep shelves viewportAspect vh cw)
      ⟨0, startX, 0, []⟩).positions

/-- The processed user bundle cached by the data provider. -/
structure UserData where
  username : String
  books : List BookRec
  currently_reading : List BookRec
  read_books : List BookRec
  deriving DecidableEq

/-- The `BookDataProvider` component state. -/
structure ProviderState where
  userData : Option UserData
  loading : Bool
  error : Option String
  currentUsername : Option String
  deriving DecidableEq

/-- `processedData` built from a successful fetch (lines 177-183 of the
provider source): derived filters on `status`. -/
def processUserData (username : String) (books : List BookRec) : UserData :=
  { username := username
    books := books
    currently_reading := books.filter fun b => b.status = "currently-reading"
    read_books := books.filter fun b => b.status = "read" }

/-- `loadUserData` with the asynchronous fetch outcome passed explicitly.
Returns the state after the call completes together with a flag telling
whether the network fetch was performed. -/
def loadUserData (st : ProviderState) (username : String)
    (fetch : Except String (List BookRec)) : ProviderState × Bool :=
  if username = "" then (st, false)
  else if st.currentUsername = some username ∧ st.userData.isSome then
    (st, false)
  else
    match fetch with
    | .ok books =>
        ({ userData := some (processUserData username books)
           loading := false
           error := none
           currentUsername := some username }, true)
    | .error e =>
        ({ userData := none
           loading := false
           error := some e
           currentUsername := st.currentUsername }, true)

/-- The `AdminProvider` component state together with the credential
cookie (`admin_key`). -/
structure AdminState where
  isAdmin : Bool
  showAdminControls : Bool
  cookie : Option String
  deriving DecidableEq

/-- Outcome of `POST /api/v1/auth/validate` for a stored key. -/
inductive ValidationResult where
  | ok : Bool → ValidationResult
  | httpError : ValidationResult
  | networkError : ValidationResult
  deriving DecidableEq

/-- `checkAdminStatus` (lines 27-60 of the admin context source), with
the validation outcome for each key passed explicitly.  Note the `catch`
branch resets the flags but does not touch the cookie. -/
def checkAdminStatus (st : AdminState)
    (validate : String → ValidationResult) : AdminState :=
  match st.cookie with
  | none => { st with isAdmin := false, showAdminControls := false }
  | some key =>
    match validate key with
    | .ok b =>
        if b then { st with isAdmin := true }
        else { st with isAdmin := false, showAdminControls := false,
                       cookie := none }
    | .httpError =>
        { st with isAdmin := false, showAdminControls := false,
                  cookie := none }
    | .networkError =>
        { st with isAdmin := false, showAdminControls := false }

/-- `toggleAdminControls` (lines 62-66). -/
def toggleAdminControls (st : AdminState) : AdminState :=
  if st.isAdmin then { st with showAdminControls := !st.showAdminControls }
  else st

/-- `logout` (lines 68-72). -/
def adminLogout (_st : AdminState) : AdminState :=
  { isAdmin := false, showAdminControls := false, cookie := none }

/-- Initial provider state (`useState(false)` twice) with an arbitrary
pre-existing cookie. -/
def initialAdminState (cookie : Option String) : AdminState :=
  { isAdmin := false, showAdminControls := false, cookie := cookie }

/-- A read book with 700 pages, finished at epoch time 5. -/
def bookPages700 : BookRec := ⟨⟨some 700⟩, "read", some 5⟩

/-- A read book with 700 pages and no finish date. -/
def bookUndated : BookRec := ⟨⟨some 700⟩, "read", none⟩

/-- A read book with 100 pages, finished at epoch time 3. -/
def bookPages100 : BookRec := ⟨⟨some 100⟩, "read", some 3⟩

/-- The admin-guard invariant: the controls are only shown to admins. -/
def adminInvariant (st : AdminState) : Prop :=
  st.showAdminControls = true → st.isAdmin = true

/-- Order between placed spines: whenever both are real books, the left
one sorts no later than the right one, and an undated left book forces
the right book to be undated as well. -/
def noLaterUndated (a b : SpineBook) : Prop :=
  ∀ b1 b2 : BookRec, a = .real b1 → b = .real b2 →
    dateLe b1 b2 = true ∧ (b1.dateFinished = none → b2.dateFinished = none)

/-! ## Theorems -/

/-- C7, counterexample: with a stored credential present and a
thrown/network error during validation, `checkAdminStatus` sets the
capability flag to false but does **not** clear the stored cookie — the
`catch` branch only resets the two flags.  This refutes the claim that
every non-confirmed validation outcome clears the credential cookie. -/
theorem admin_error_keeps_cookie_cex :
    (checkAdminStatus ⟨false, false, some "k"⟩
        (fun _ => ValidationResult.networkError)).isAdmin = false ∧
    (checkAdminStatus ⟨false, false, some "k"⟩
        (fun _ => ValidationResult.networkError)).cookie = some "k" ∧
    ¬((checkAdminStatus ⟨false, false, some "k"⟩
        (fun _ => ValidationResult.networkError)).cookie = none) := by
  refine ⟨rfl, rfl, ?_⟩
  simp [checkAdminStatus]

/-- C7, amended: whenever a stored credential is present, an
`is_admin:false` response or a non-success HTTP status clears the stored
cookie and sets the capability flag to false; a thrown/network error sets
the capability flag (and the controls-visibility flag) to false but
leaves the stored cookie unchanged. -/
theorem admin_validation_failure_behavior :
    ∀ (st : AdminState) (v : String → ValidationResult) (key : String),
      st.cookie = some key →
      ((v key = .ok false →
          checkAdminStatus st v =
            { isAdmin := false, showAdminControls := false, cookie := none }) ∧
       (v key = .httpError →
          checkAdminStatus st v =
            { isAdmin := false, showAdminControls := false, cookie := none }) ∧
       (v key = .networkError →
          checkAdminStatus st v =
            { isAdmin := false, showAdminControls := false,
              cookie := st.cookie })) := by
  intro st v key hck
  refine ⟨?_, ?_, ?_⟩ <;> intro hv <;> simp [checkAdminStatus, hck, hv]

/-- Witness for `admin_validation_failure_behavior` at a concrete state
and validator. -/
theorem admin_validation_failure_behavior_witness :
    checkAdminStatus ⟨true, true, some "k"⟩ (fun _ => ValidationResult.ok false)
      = { isAdmin := false, showAdminControls := false, cookie := none } ∧
    checkAdminStatus ⟨true, true, some "k"⟩ (fun _ => ValidationResult.networkError)
      = { isAdmin := false, showAdminControls := false, cookie := some "k" } :=
  ⟨(admin_validation_failure_behavior ⟨true, true, some "k"⟩
      (fun _ => ValidationResult.ok false) "k" rfl).1 rfl,
   (admin_validation_failure_behavior ⟨true, true, some "k"⟩
      (fun _ => ValidationResult.networkError) "k" rfl).2.2 rfl⟩

/-- C10: `showAdminControls = true → isAdmin = true` holds initially, is
(re-)established by every `checkAdminStatus` outcome and by `logout`, and
is preserved by `toggleAdminControls`; moreover the toggle changes the
visibility flag only when `isAdmin` is true and is a no-op otherwise. -/
theorem admin_controls_invariant :
    (∀ c, adminInvariant (initialAdminState c)) ∧
    (∀ st v, adminInvariant (checkAdminStatus st v)) ∧
    (∀ st, adminInvariant st → adminInvariant (toggleAdminControls st)) ∧
    (∀ st, adminInvariant (adminLogout st)) ∧
    (∀ st, st.isAdmin = false → toggleAdminControls st = st) ∧
    (∀ st, st.isAdmin = true →
      (toggleAdminControls st).showAdminControls = !st.showAdminControls ∧
      (toggleAdminControls st).isAdmin = st.isAdmin ∧
      (toggleAdminControls st).cookie = st.cookie) := by
  refine ⟨?_, ?_, ?_, ?_, ?_, ?_⟩
  · intro c
    simp [adminInvariant, initialAdminState]
  · intro st v
    rcases hck : st.cookie with _ | key
    · simp [adminInvariant, checkAdminStatus, hck]
    · rcases hv : v key with b | _ | _ <;>
        simp [adminInvariant, checkAdminStatus, hck, hv]
      cases b <;> simp
  · intro st h
    by_cases ha : st.isAdmin
    · simp [adminInvariant, toggleAdminControls, ha]
    · have heq : toggleAdminControls st = st := by
        simp [toggleAdminControls, ha]
      rw [heq]
      exact h
  · intro st
    simp [adminInvariant, adminLogout]
  · intro st ha
    simp [toggleAdminControls, ha]
  · intro st ha
    simp [toggleAdminControls, ha]

/-- Witness for `admin_controls_invariant` at concrete states. -/
theorem admin_controls_invariant_witness :
    adminInvariant (toggleAdminControls ⟨true, true, some "k"⟩) ∧
    toggleAdminControls ⟨false, true, none⟩ = ⟨false, true, none⟩ ∧
    (toggleAdminControls ⟨true, false, some "k"⟩).showAdminControls = !false :=
  ⟨admin_controls_invariant.2.2.1 ⟨true, true, some "k"⟩ (fun _ => rfl),
   admin_controls_invariant.2.2.2.2.1 ⟨false, true, none⟩ rfl,
   (admin_controls_invariant.2.2.2.2.2 ⟨true, false, some "k"⟩ rfl).1⟩

/-- C9: if the provider already caches data for exactly the requested
username, `load` performs no fetch and returns the state unchanged; and
from any state not cached for `u`, a successful `load u` followed by a
second `load u` performs exactly one fetch, the second call being a
no-op on the state produced by the first. -/
theorem load_cached_noop :
    (∀ (st : ProviderState) (u : String) (f : Except String (List BookRec))
        (d : UserData),
      st.currentUsername = some u → st.userData = some d →
      loadUserData st u f = (st, false)) ∧
    (∀ (st : ProviderState) (u : String) (books : List BookRec)
        (f2 : Except String (List BookRec)),
      u ≠ "" →
      ¬(st.currentUsername = some u ∧ st.userData.isSome) →
      (loadUserData st u (.ok books)).2 = true ∧
      loadUserData (loadUserData st u (.ok books)).1 u f2 =
        ((loadUserData st u (.ok books)).1, false)) := by
  constructor
  · intro st u f d hcu hud
    by_cases hu : u = ""
    · simp [loadUserData, hu]
    · simp [loadUserData, hu, hcu, hud]
  · intro st u books f2 hu hnc
    simp [loadUserData, hu, hnc]

/-- Witness for `load_cached_noop`: starting from the empty provider
state, loading a user twice fetches once. -/
theorem load_cached_noop_witness :
    (loadUserData ⟨none, false, none, none⟩ "alice" (.ok [bookPages700])).2
        = true ∧
    loadUserData (loadUserData ⟨none, false, none, none⟩ "alice"
        (.ok [bookPages700])).1 "alice" (.ok []) =
      ((loadUserData ⟨none, false, none, none⟩ "alice"
        (.ok [bookPages700])).1, false) :=
  load_cached_noop.2 ⟨none, false, none, none⟩ "alice" [bookPages700]
    (.ok []) (by simp) (by simp)

/-- The interpolated width multiplier always lies in `[0.012, 0.045]`. -/
theorem widthMultiplier_bounds (x : ℚ) :
    0.012 ≤ widthMultiplier x ∧ widthMultiplier x ≤ 0.045 := by
  unfold widthMultiplier
  split_ifs with h1 h2
  · norm_num
  · norm_num
  · have hx1 : (100 : ℚ) < x := not_le.mp h1
    have hx2 : x < 700 := not_le.mp h2
    have hnn : (0 : ℚ) ≤ (x - 100) / (700 - 100) :=
      div_nonneg (by linarith) (by norm_num)
    have hle : (x - 100) / (700 - 100) ≤ 1 := by
      rw [div_le_one (by norm_num)]
      linarith
    have h33 : (0 : ℚ) ≤ 0.045 - 0.012 := by norm_num
    constructor
    · nlinarith [mul_nonneg h33 hnn]
    · nlinarith [mul_le_mul_of_nonneg_left hle h33]

/-- The interpolated width multiplier is monotone in its argument. -/
theorem widthMultiplier_mono : ∀ x y : ℚ, x ≤ y →
    widthMultiplier x ≤ widthMultiplier y := by
  intro x y hxy
  rcases le_or_lt x 100 with hx1 | hx1
  · rw [show widthMultiplier x = 0.012 by rw [widthMultiplier, if_pos hx1]]
    exact (widthMultiplier_bounds y).1
  · rcases le_or_lt 700 x with hx2 | hx2
    · have hy1 : ¬y ≤ 100 := by linarith
      have hy2 : (700 : ℚ) ≤ y := by linarith
      rw [widthMultiplier, if_neg (not_le.mpr hx1), if_pos hx2,
        widthMultiplier, if_neg hy1, if_pos hy2]
    · have hwx : widthMultiplier x =
          0.012 + (0.045 - 0.012) * ((x - 100) / (700 - 100)) := by
        rw [widthMultiplier, if_neg (not_le.mpr hx1), if_neg (not_le.mpr hx2)]
      rcases le_or_lt 700 y with hy2 | hy2
      · rw [show widthMultiplier y = 0.045 by
          rw [widthMultiplier, if_neg (by linarith), if_pos hy2]]
        exact (widthMultiplier_bounds x).2
      · have hwy : widthMultiplier y =
            0.012 + (0.045 - 0.012) * ((y - 100) / (700 - 100)) := by
          rw [widthMultiplier, if_neg (by linarith), if_neg (not_le.mpr hy2)]
        rw [hwx, hwy]
        gcongr

/-- C6, counterexample: the spine width is not monotone in the supplied
page count.  JavaScript `pageCount || 200` replaces a supplied `0` (falsy)
by the 200-page default as well, so a 0-page book gets the 200-page width
`0.0175 · vh` while a 1-page book gets the minimum `0.012 · vh`. -/
theorem spine_width_not_monotone_cex :
    (0 : ℕ) < 1 ∧
    (calculateSpineDimensions (some 0) 2 1000).1 = 17.5 ∧
    (calculateSpineDimensions (some 1) 2 1000).1 = 12 ∧
    ¬((calculateSpineDimensions (some 0) 2 1000).1
        ≤ (calculateSpineDimensions (some 1) 2 1000).1) := by
  refine ⟨by norm_num, ?_, ?_, ?_⟩ <;>
    norm_num [calculateSpineDimensions, effectivePages, widthMultiplier]

/-- C6, amended: the width multiplier computed from the *effective* page
count (200 substituted when the count is absent — or zero, by the `||`
default) is monotone and clamped to `[0.012, 0.045]`: `0.012` up to 100
pages, `0.045` from 700 pages, linear in between; the height multiplier
is `0.115 + (pages mod 40)/1600` independent of the interpolation; the
spine size is the multiplier times viewport height, additionally scaled
by `0.7` in vertical mode. -/
theorem spine_width_multiplier_props :
    (∀ x y : ℚ, x ≤ y → widthMultiplier x ≤ widthMultiplier y) ∧
    (∀ x : ℚ, 0.012 ≤ widthMultiplier x ∧ widthMultiplier x ≤ 0.045) ∧
    (∀ p : ℕ, p ≤ 100 → widthMultiplier p = 0.012) ∧
    (∀ p : ℕ, 700 ≤ p → widthMultiplier p = 0.045) ∧
    (∀ p : ℕ, 100 < p → p < 700 →
      widthMultiplier p = 0.012 + (0.045 - 0.012) * (((p : ℚ) - 100) / 600)) ∧
    effectivePages none = 200 ∧
    (∀ p : ℕ, p ≠ 0 → effectivePages (some p) = p) ∧
    (∀ pc va vh, 1 < va →
      calculateSpineDimensions pc va vh =
        (vh * widthMultiplier (effectivePages pc),
         vh * (0.115 + ((effectivePages pc % 40 : ℕ) : ℚ) / 1600))) ∧
    (∀ pc va vh, ¬(1 < va) →
      calculateSpineDimensions pc va vh =
        (vh * widthMultiplier (effectivePages pc) * 0.7,
         vh * (0.115 + ((effectivePages pc % 40 : ℕ) : ℚ) / 1600) * 0.7)) := by
  refine ⟨widthMultiplier_mono, widthMultiplier_bounds, ?_, ?_, ?_, rfl,
    ?_, ?_, ?_⟩
  · intro p hp
    have : ((p : ℚ)) ≤ 100 := by exact_mod_cast hp
    rw [widthMultiplier, if_pos this]
  · intro p hp
    have h7 : (700 : ℚ) ≤ (p : ℚ) := by exact_mod_cast hp
    rw [widthMultiplier, if_neg (by linarith), if_pos h7]
  · intro p hp1 hp2
    have h1 : (100 : ℚ) < (p : ℚ) := by exact_mod_cast hp1
    have h2 : ((p : ℚ)) < 700 := by exact_mod_cast hp2
    rw [widthMultiplier, if_neg (not_le.mpr h1), if_neg (not_le.mpr h2)]
    norm_num
  · intro p hp
    simp [effectivePages, hp]
  · intro pc va vh hva
    simp [calculateSpineDimensions, hva]
  · intro pc va vh hva
    simp [calculateSpineDimensions, hva]

/-- Witness for `spine_width_multiplier_props` at concrete page counts. -/
theorem spine_width_multiplier_props_witness :
    widthMultiplier 150 ≤ widthMultiplier 300 ∧
    widthMultiplier ((100 : ℕ) : ℚ) = 0.012 ∧
    widthMultiplier ((700 : ℕ) : ℚ) = 0.045 ∧
    calculateSpineDimensions (some 400) 2 900 =
      (900 * widthMultiplier (effectivePages (some 400)),
       900 * (0.115 + ((effectivePages (some 400) % 40 : ℕ) : ℚ) / 1600)) :=
  ⟨spine_width_multiplier_props.1 150 300 (by norm_num),
   spine_width_multiplier_props.2.2.1 100 (by norm_num),
   spine_width_multiplier_props.2.2.2.1 700 (by norm_num),
   spine_width_multiplier_props.2.2.2.2.2.2.2.1 (some 400) 2 900 (by norm_num)⟩

/-- Projecting the placed book out of a zip-with-anchors layout recovers
the books truncated to the number of anchors. -/
theorem zip_map_book (f : BookRec × (ℚ × ℚ) → Placed BookRec)
    (hf : ∀ bp, (f bp).book = bp.1) :
    ∀ (l : List BookRec) (m : List (ℚ × ℚ)),
      ((l.zip m).map f).map (fun r => r.book) = l.take m.length
  | [], _ => by simp
  | _ :: _, [] => by simp
  | a :: l, b :: m => by
    simp only [List.zip_cons_cons, List.map_cons, List.length_cons,
      List.take_succ_cons, hf, List.cons.injEq, true_and]
    exact zip_map_book f hf l m

/-- C1: with nonzero container measurements and a positive viewport
height, `calculateBookPositions` returns exactly `min n 3` rectangles in
both layout modes, the placed books are exactly the first three
currently-reading books (extras are dropped), and every rectangle has
`x ≥ 0`, `y ≥ 0`, `width > 0`, `height > 0`. -/
theorem cover_layout_count_and_bounds :
    ∀ (vw vh cw ch : ℚ) (books : List BookRec),
      cw ≠ 0 → ch ≠ 0 → 0 < vh →
      ((calculateBookPositions vw vh cw ch books).length = min books.length 3 ∧
       (calculateBookPositions vw vh cw ch books).map (fun r => r.book) =
         books.take 3 ∧
       ∀ r ∈ calculateBookPositions vw vh cw ch books,
         0 ≤ r.x ∧ 0 ≤ r.y ∧ 0 < r.width ∧ 0 < r.height) := by
  intro vw vh cw ch books hcw hch hvh
  rcases eq_or_ne books [] with hb | hb
  · subst hb
    simp [calculateBookPositions]
  · have hguard : ¬(cw = 0 ∨ ch = 0 ∨ books = []) := by
      push_neg
      exact ⟨hcw, hch, hb⟩
    rw [calculateBookPositions, if_neg hguard]
    have h27 : (0 : ℚ) < vh * 0.27 := mul_pos hvh (by norm_num)
    have h20 : (0 : ℚ) < vh * 0.2 := mul_pos hvh (by norm_num)
    by_cases hm : (1 : ℚ) < vw / vh
    · simp only [hm, if_true]
      refine ⟨by simp [coverAnchorsH], ?_, ?_⟩
      · rw [zip_map_book _ (fun bp => rfl)]
        simp [coverAnchorsH]
      · intro r hr
        simp only [List.mem_map] at hr
        obtain ⟨bp, -, rfl⟩ := hr
        refine ⟨le_max_left 0 _, le_max_left 0 _, ?_, h27⟩
        exact mul_pos h27 (by norm_num)
    · simp only [hm, if_false]
      refine ⟨by simp [coverAnchorsV], ?_, ?_⟩
      · rw [zip_map_book _ (fun bp => rfl)]
        simp [coverAnchorsV]
      · intro r hr
        simp only [List.mem_map] at hr
        obtain ⟨bp, -, rfl⟩ := hr
        refine ⟨le_max_left 0 _, le_max_left 0 _, ?_, h20⟩
        exact mul_pos h20 (by norm_num)

/-- Witness for `cover_layout_count_and_bounds`: four currently-reading
books at a 1600×900 viewport yield exactly three rectangles. -/
theorem cover_layout_count_and_bounds_witness :
    (calculateBookPositions 1600 900 1000 800
        [bookPages700, bookUndated, bookPages100, bookPages700]).length =
      min 4 3 ∧
    (calculateBookPositions 1600 900 1000 800
        [bookPages700, bookUndated, bookPages100, bookPages700]).map
        (fun r => r.book) =
      [bookPages700, bookUndated, bookPages100, bookPages700].take 3 :=
  ⟨(cover_layout_count_and_bounds 1600 900 1000 800 _
      (by norm_num) (by norm_num) (by norm_num)).1,
   (cover_layout_count_and_bounds 1600 900 1000 800 _
      (by norm_num) (by norm_num) (by norm_num)).2.1⟩

/-- C5: in horizontal mode every anchor Y percentage is remapped through
`adjustYH y = max 0 ((y - 25) / 0.75)` before pixel conversion — the
output Y coordinates for three books are exactly the remapped anchors
77/76/55 converted to pixels; `adjustYH 77 = 208/3` (≈ 69.33%); and at a
1600×900 viewport each cover is 243 px high and 157.95 px (≈ 158 px)
wide. -/
theorem cover_horizontal_remap :
    (∀ (vw vh cw ch : ℚ) (b1 b2 b3 : BookRec),
      cw ≠ 0 → ch ≠ 0 → 1 < vw / vh →
      (calculateBookPositions vw vh cw ch [b1, b2, b3]).map (fun r => r.y) =
        [max 0 (vh * adjustYH 77 / 100 - vh * 0.27 / 2),
         max 0 (vh * adjustYH 76 / 100 - vh * 0.27 / 2),
         max 0 (vh * adjustYH 55 / 100 - vh * 0.27 / 2)]) ∧
    adjustYH 77 = 208 / 3 ∧
    (calculateBookPositions 1600 900 1000 800
        [bookPages700, bookUndated, bookPages100]).map
        (fun r => (r.width, r.height)) =
      [(157.95, 243), (157.95, 243), (157.95, 243)] := by
  refine ⟨?_, ?_, ?_⟩
  · intro vw vh cw ch b1 b2 b3 hcw hch hm
    have hguard : ¬(cw = 0 ∨ ch = 0 ∨ ([b1, b2, b3] : List BookRec) = []) := by
      push_neg
      exact ⟨hcw, hch, by simp⟩
    rw [calculateBookPositions, if_neg hguard]
    simp only [hm, if_true, coverAnchorsH]
    norm_num
  · rw [adjustYH]
    norm_num
  · have hguard : ¬((1000 : ℚ) = 0 ∨ (800 : ℚ) = 0 ∨
        ([bookPages700, bookUndated, bookPages100] : List BookRec) = []) := by
      push_neg
      refine ⟨by norm_num, by norm_num, by simp⟩
    rw [calculateBookPositions, if_neg hguard]
    norm_num [coverAnchorsH]

/-- Witness for `cover_horizontal_remap` at a 1600×900 viewport. -/
theorem cover_horizontal_remap_witness :
    (calculateBookPositions 1600 900 1000 800
        [bookPages700, bookUndated, bookPages100]).map (fun r => r.y) =
      [max 0 (900 * adjustYH 77 / 100 - 900 * 0.27 / 2),
       max 0 (900 * adjustYH 76 / 100 - 900 * 0.27 / 2),
       max 0 (900 * adjustYH 55 / 100 - 900 * 0.27 / 2)] :=
  cover_horizontal_remap.1 1600 900 1000 800 bookPages700 bookUndated
    bookPages100 (by norm_num) (by norm_num) (by norm_num)

/-- C2: in the packing loop a spine moves to the next band iff its
projected right edge (current X plus its width as a percentage of the
image reference width) strictly exceeds the current band's `endX` *and*
at least one spine is already on the band; the first spine on an empty
band is always placed on that band, even when it overflows `endX`. -/
theorem spine_wrap_iff :
    ∀ (shelves : List Shelf) (va vh cw : ℚ) (st : PackState)
      (bk : SpineBook) (w ht : ℚ) (hIdx : st.shelfIndex < shelves.length),
      (((packStep shelves va vh cw st (bk, w, ht)).shelfIndex ≠ st.shelfIndex)
        ↔ ((shelves.get ⟨st.shelfIndex, hIdx⟩).endX <
             st.xPos + w / imageReferenceWidth va vh * 100 ∧
           0 < st.booksOnShelf)) ∧
      (((shelves.get ⟨st.shelfIndex, hIdx⟩).endX <
          st.xPos + w / imageReferenceWidth va vh * 100 ∧
         0 < st.booksOnShelf) →
        (packStep shelves va vh cw st (bk, w, ht)).shelfIndex =
          st.shelfIndex + 1) ∧
      (st.booksOnShelf = 0 →
        (packStep shelves va vh cw st (bk, w, ht)).shelfIndex = st.shelfIndex ∧
        ∃ r : Placed SpineBook,
          (packStep shelves va vh cw st (bk, w, ht)).positions =
            st.positions ++ [r] ∧
          r.book = bk ∧
          r.y = max 0 (if 1 < va then
              vh * adjustYH (shelves.get ⟨st.shelfIndex, hIdx⟩).y / 100 - ht
            else
              vh * (shelves.get ⟨st.shelfIndex, hIdx⟩).y / 100 - ht)) := by
  intro shelves va vh cw st bk w ht hIdx
  rw [packStep, dif_pos hIdx]
  dsimp only
  by_cases hw : (shelves.get ⟨st.shelfIndex, hIdx⟩).endX <
      st.xPos + w / imageReferenceWidth va vh * 100 ∧ 0 < st.booksOnShelf
  · rw [if_pos hw]
    by_cases hN : st.shelfIndex + 1 < shelves.length
    · rw [dif_pos hN]
      refine ⟨iff_of_true (Nat.succ_ne_self _) hw, fun _ => rfl, ?_⟩
      intro h0
      exact absurd hw (by simp [h0])
    · rw [dif_neg hN]
      refine ⟨iff_of_true (Nat.succ_ne_self _) hw, fun _ => rfl, ?_⟩
      intro h0
      exact absurd hw (by simp [h0])
  · rw [if_neg hw]
    exact ⟨iff_of_false (fun h => h rfl) hw, fun h => absurd h hw,
      fun _ => ⟨rfl, ⟨_, rfl, rfl, rfl⟩⟩⟩

/-- Witness for `spine_wrap_iff`: a first spine on an empty band stays on
band 0 and is appended to the output. -/
theorem spine_wrap_iff_witness :
    (packStep shelfPositionsH 2 100 150 ⟨0, 40, 0, []⟩
        (SpineBook.admin, 45, 12)).shelfIndex = 0 ∧
    (packStep shelfPositionsH 2 100 150 ⟨0, 40, 0, []⟩
        (SpineBook.admin, 45, 12)).positions.length = 1 := by
  have h := (spine_wrap_iff shelfPositionsH 2 100 150 ⟨0, 40, 0, []⟩
    SpineBook.admin 45 12 (by norm_num [shelfPositionsH])).2.2 rfl
  obtain ⟨h1, r, h2, -, -⟩ := h
  exact ⟨h1, by rw [h2]; simp⟩

/-- C4, counterexample: the inter-spine spacing is added to the running X
position unconditionally, not only when the following spine still fits.
With viewport aspect 2, `vh = 5` (image reference width `7.5`), a spine
of width `0.225` px occupies 3% and the 3 px spacing occupies 40%.
Packing the first spine at `startX = 40` leaves the running X at
`40 + 3 + 40 = 83`, although the following 3%-wide spine then no longer
fits (`83 + 3 > 85`) while without the spacing it would (`43 + 3 ≤ 85`);
consequently the second identical spine wraps to band 1. -/
theorem spine_spacing_cex :
    (packStep shelfPositionsH 2 5 100 ⟨0, 40, 0, []⟩
        (SpineBook.real bookPages700, 9 / 40, 1)).xPos = 83 ∧
    ((40 : ℚ) + 3 + 40 + 3 > 85 ∧ (40 : ℚ) + 3 + 3 ≤ 85) ∧
    (packStep shelfPositionsH 2 5 100
        (packStep shelfPositionsH 2 5 100 ⟨0, 40, 0, []⟩
          (SpineBook.real bookPages700, 9 / 40, 1))
        (SpineBook.real bookPages700, 9 / 40, 1)).shelfIndex = 1 := by
  refine ⟨?_, by norm_num, ?_⟩ <;>
    norm_num [packStep, shelfPositionsH, imageReferenceWidth, aspectRatio,
      adjustYH]

/-- C4, amended: after each placed spine a fixed 3-pixel spacing
(converted to a percentage of the image reference width, the same in
both layout modes) is *unconditionally* added to the running X position;
a following spine that no longer fits — even if only because of the
spacing — is handled by the wrap check on the next item. -/
theorem spine_spacing_unconditional :
    ∀ (shelves : List Shelf) (va vh cw : ℚ) (st : PackState)
      (bk : SpineBook) (w ht : ℚ) (hIdx : st.shelfIndex < shelves.length),
      (¬((shelves.get ⟨st.shelfIndex, hIdx⟩).endX <
            st.xPos + w / imageReferenceWidth va vh * 100 ∧
          0 < st.booksOnShelf) →
        (packStep shelves va vh cw st (bk, w, ht)).xPos =
          st.xPos + w / imageReferenceWidth va vh * 100 +
            3 / imageReferenceWidth va vh * 100) ∧
      (∀ hN : st.shelfIndex + 1 < shelves.length,
        ((shelves.get ⟨st.shelfIndex, hIdx⟩).endX <
            st.xPos + w / imageReferenceWidth va vh * 100 ∧
          0 < st.booksOnShelf) →
        (packStep shelves va vh cw st (bk, w, ht)).xPos =
          (shelves.get ⟨st.shelfIndex + 1, hN⟩).startX +
            w / imageReferenceWidth va vh * 100 +
            3 / imageReferenceWidth va vh * 100) := by
  intro shelves va vh cw st bk w ht hIdx
  rw [packStep, dif_pos hIdx]
  dsimp only
  constructor
  · intro hw
    rw [if_neg hw]
  · intro hN hw
    rw [if_pos hw, dif_pos hN]

/-- Witness for `spine_spacing_unconditional`: a placed spine advances
the running X by its width percentage plus the 2% spacing
(3 px at reference width 150). -/
theorem spine_spacing_unconditional_witness :
    (packStep shelfPositionsH 2 100 150 ⟨0, 40, 1, []⟩
        (SpineBook.admin, 45, 12)).xPos = 72 := by
  have h := (spine_spacing_unconditional shelfPositionsH 2 100 150
    ⟨0, 40, 1, []⟩ SpineBook.admin 45 12 (by norm_num [shelfPositionsH])).1
    (by norm_num [shelfPositionsH, imageReferenceWidth, aspectRatio])
  rw [h]
  norm_num [imageReferenceWidth, aspectRatio]

/-- The finish-date comparison is transitive. -/
theorem dateLe_trans : ∀ a b c : BookRec, dateLe a b = true →
    dateLe b c = true → dateLe a c = true := by
  intro a b c
  unfold dateLe
  rcases a.dateFinished with _ | x <;> rcases b.dateFinished with _ | y <;>
    rcases c.dateFinished with _ | z <;> simp
  omega

/-- The finish-date comparison is total. -/
theorem dateLe_total : ∀ a b : BookRec, (dateLe a b || dateLe b a) = true := by
  intro a b
  unfold dateLe
  rcases a.dateFinished with _ | x <;> rcases b.dateFinished with _ | y <;>
    simp
  omega

/-- A book sorting no later than another while having no finish date
forces the other to be undated as well (`none` is the top element). -/
theorem dateLe_none_right {a b : BookRec} (h : dateLe a b = true)
    (ha : a.dateFinished = none) : b.dateFinished = none := by
  rcases hb : b.dateFinished with _ | y
  · rfl
  · unfold dateLe at h
    rw [ha, hb] at h
    simp at h

/-- Each packing step either skips the item or appends exactly one
rectangle, carrying the item's book, at the end of the output. -/
theorem packStep_positions_cases (shelves : List Shelf) (va vh cw : ℚ)
    (st : PackState) (it : SpineBook × ℚ × ℚ) :
    (packStep shelves va vh cw st it).positions = st.positions ∨
    ∃ r : Placed SpineBook, r.book = it.1 ∧
      (packStep shelves va vh cw st it).positions = st.positions ++ [r] := by
  obtain ⟨bk, w, ht⟩ := it
  by_cases hIdx : st.shelfIndex < shelves.length
  · rw [packStep, dif_pos hIdx]
    dsimp only
    by_cases hw : (shelves.get ⟨st.shelfIndex, hIdx⟩).endX <
        st.xPos + w / imageReferenceWidth va vh * 100 ∧ 0 < st.booksOnShelf
    · rw [if_pos hw]
      by_cases hN : st.shelfIndex + 1 < shelves.length
      · rw [dif_pos hN]
        exact Or.inr ⟨_, rfl, rfl⟩
      · rw [dif_neg hN]
        exact Or.inl rfl
    · rw [if_neg hw]
      exact Or.inr ⟨_, rfl, rfl⟩
  · rw [packStep, dif_neg hIdx]
    exact Or.inl rfl

/-- Folding the packing step over the item list appends an
order-preserving selection of the items to the accumulated output. -/
theorem foldl_packStep_positions (shelves : List Shelf) (va vh cw : ℚ) :
    ∀ (items : List (SpineBook × ℚ × ℚ)) (st : PackState),
      ∃ t, (items.foldl (packStep shelves va vh cw) st).positions =
          st.positions ++ t ∧
        List.Sublist (t.map (fun r => r.book)) (items.map (fun it => it.1))
  | [], st => ⟨[], by simp, by simp⟩
  | it :: rest, st => by
    obtain ⟨t, ht, hs⟩ := foldl_packStep_positions shelves va vh cw rest
      (packStep shelves va vh cw st it)
    rcases packStep_positions_cases shelves va vh cw st it with h | ⟨r, hr, h⟩
    · exact ⟨t, by rw [List.foldl_cons, ht, h],
        hs.trans (List.sublist_cons_self _ _)⟩
    · refine ⟨r :: t, ?_, ?_⟩
      · rw [List.foldl_cons, ht, h, List.append_assoc]
        rfl
      · rw [List.map_cons, List.map_cons, hr]
        exact List.Sublist.cons₂ _ hs

/-- Evaluation of a packing step on a band with no spine yet: the item
is always placed on the current band. -/
theorem packStep_empty_shelf {shelves : List Shelf} {va vh cw x0 : ℚ}
    {idx : Nat} {ps : List (Placed SpineBook)} {bk : SpineBook} {w ht : ℚ}
    (hIdx : idx < shelves.length) :
    packStep shelves va vh cw ⟨idx, x0, 0, ps⟩ (bk, w, ht) =
      { shelfIndex := idx
        xPos := x0 + w / imageReferenceWidth va vh * 100 +
          3 / imageReferenceWidth va vh * 100
        booksOnShelf := 1
        positions := ps ++ [⟨bk,
          max 0 ((cw - vh * aspectRatio) / 2 + (vh * aspectRatio) *
            (x0 + w / imageReferenceWidth va vh * 100 / 2) / 100 - w / 2),
          max 0 (if 1 < va then
              vh * adjustYH (shelves.get ⟨idx, hIdx⟩).y / 100 - ht
            else vh * (shelves.get ⟨idx, hIdx⟩).y / 100 - ht),
          w, ht⟩] } := by
  rw [packStep, dif_pos hIdx]
  dsimp only
  rw [if_neg (by simp)]

/-- Folded packing output over an initially empty accumulator is
pairwise-ordered whenever the item list is. -/
theorem pack_output_pairwise (shelves : List Shelf) (va vh cw : ℚ)
    (items : List (SpineBook × ℚ × ℚ)) (st : PackState)
    (hst : st.positions = [])
    (hp : (items.map (fun it => it.1)).Pairwise noLaterUndated) :
    (((items.foldl (packStep shelves va vh cw) st).positions).map
      (fun r => r.book)).Pairwise noLaterUndated := by
  obtain ⟨t, ht, hs⟩ := foldl_packStep_positions shelves va vh cw items st
  rw [ht, hst, List.nil_append]
  exact hp.sublist hs

/-- C3: the read books are packed in ascending finish-date order with an
absent finish date treated as positive infinity, so in the output spine
sequence every pair of real books is ordered by `dateLe` and every book
lacking a finish date appears strictly after every book that has one. -/
theorem spine_order_dated_before_undated :
    ∀ (vw vh cw ch : ℚ) (books : List BookRec) (adm : Bool),
      ((calculateBookSpinePositions vw vh cw ch books adm).map
        (fun r => r.book)).Pairwise noLaterUndated := by
  intro vw vh cw ch books adm
  rw [calculateBookSpinePositions]
  by_cases h1 : cw = 0 ∨ ch = 0
  · rw [if_pos h1]
    simp
  · rw [if_neg h1]
    by_cases h2 : adm = false ∧ books = []
    · rw [if_pos h2]
      simp
    · rw [if_neg h2]
      dsimp only
      refine pack_output_pairwise _ _ _ _ _ _ rfl ?_
      have hreal : (((books.mergeSort dateLe).map
          (fun b => (SpineBook.real b,
            calculateSpineDimensions b.books.pages (vw / vh) vh))).map
          (fun it => it.1)).Pairwise noLaterUndated := by
        rw [List.map_map, List.pairwise_map]
        refine (List.sorted_mergeSort
          (fun a b c => dateLe_trans a b c)
          (fun a b => dateLe_total a b) books).imp ?_
        intro a b hab
        intro b1 b2 hb1 hb2
        obtain rfl : a = b1 := by injection hb1
        obtain rfl : b = b2 := by injection hb2
        exact ⟨hab, fun hn => dateLe_none_right hab hn⟩
      cases adm
      · simpa using hreal
      · rw [if_pos rfl, List.map_cons, List.pairwise_cons]
        refine ⟨?_, hreal⟩
        intro x hx b1 b2 hb1 hb2
        simp [adminSpineItem] at hb1

/-- C8: the spine layout returns `[]` whenever a container measurement is
zero; with nonzero measurements and no read books it returns `[]` without
the admin capability, and with the admin capability it places exactly the
admin pseudo-spine on the first band, sized by the fixed multipliers
0.025 (width) and 0.12 (height) of the viewport height (scaled by the
common 0.7 factor in vertical mode), independent of the page-count
logic; with the admin capability the admin pseudo-spine is always the
first placed spine. -/
theorem spine_layout_edge_cases :
    (∀ (vw vh cw ch : ℚ) (books : List BookRec) (adm : Bool),
      (cw = 0 ∨ ch = 0) →
      calculateBookSpinePositions vw vh cw ch books adm = []) ∧
    (∀ (vw vh cw ch : ℚ), cw ≠ 0 → ch ≠ 0 →
      calculateBookSpinePositions vw vh cw ch [] false = []) ∧
    (∀ (vw vh cw ch : ℚ), cw ≠ 0 → ch ≠ 0 →
      ∃ r : Placed SpineBook,
        calculateBookSpinePositions vw vh cw ch [] true = [r] ∧
        r.book = SpineBook.admin ∧
        r.width = (if 1 < vw / vh then vh * 0.025 else vh * 0.025 * 0.7) ∧
        r.height = (if 1 < vw / vh then vh * 0.12 else vh * 0.12 * 0.7) ∧
        r.y = max 0 (if 1 < vw / vh then
            vh * adjustYH 51.5 / 100 - vh * 0.12
          else vh * 51 / 100 - vh * 0.12 * 0.7)) ∧
    (∀ (vw vh cw ch : ℚ) (books : List BookRec), cw ≠ 0 → ch ≠ 0 →
      ∃ r rest, calculateBookSpinePositions vw vh cw ch books true =
          r :: rest ∧
        r.book = SpineBook.admin) := by
  refine ⟨?_, ?_, ?_, ?_⟩
  · intro vw vh cw ch books adm h
    rw [calculateBookSpinePositions, if_pos h]
  · intro vw vh cw ch hcw hch
    rw [calculateBookSpinePositions,
      if_neg (by push_neg; exact ⟨hcw, hch⟩), if_pos ⟨rfl, rfl⟩]
  · intro vw vh cw ch hcw hch
    rw [calculateBookSpinePositions,
      if_neg (by push_neg; exact ⟨hcw, hch⟩), if_neg (by simp)]
    dsimp only
    by_cases hm : (1 : ℚ) < vw / vh
    · simp only [hm, if_true, List.mergeSort_nil, List.map_nil,
        List.foldl_cons, List.foldl_nil, adminSpineItem]
      rw [packStep_empty_shelf (by simp [shelfPositionsH])]
      refine ⟨_, by rw [List.nil_append], rfl, rfl, rfl, ?_⟩
      simp [shelfPositionsH, hm]
    · simp only [hm, if_true, if_false, List.mergeSort_nil, List.map_nil,
        List.foldl_cons, List.foldl_nil, adminSpineItem]
      rw [packStep_empty_shelf (by simp [shelfPositionsV])]
      refine ⟨_, by rw [List.nil_append], rfl, rfl, rfl, ?_⟩
      simp [shelfPositionsV, hm]
  · intro vw vh cw ch books hcw hch
    rw [calculateBookSpinePositions,
      if_neg (by push_neg; exact ⟨hcw, hch⟩), if_neg (by simp)]
    dsimp only
    simp only [if_true, adminSpineItem, List.foldl_cons]
    rw [packStep_empty_shelf (by split_ifs <;>
      simp [shelfPositionsH, shelfPositionsV])]
    obtain ⟨t, ht, -⟩ := foldl_packStep_positions _ _ _ _ _ _
    exact ⟨_, t, by rw [ht]; rfl, rfl⟩

/-- Witness for `spine_layout_edge_cases` at concrete measurements. -/
theorem spine_layout_edge_cases_witness :
    calculateBookSpinePositions 1600 900 0 800 [bookPages700] true = [] ∧
    calculateBookSpinePositions 1600 900 1000 800 [] false = [] ∧
    ∃ r : Placed SpineBook,
      calculateBookSpinePositions 1600 900 1000 800 [] true = [r] ∧
      r.book = SpineBook.admin :=
  ⟨spine_layout_edge_cases.1 1600 900 0 800 [bookPages700] true (Or.inl rfl),
   spine_layout_edge_cases.2.1 1600 900 1000 800 (by norm_num) (by norm_num),
   by
    obtain ⟨r, e1, e2, -, -, -⟩ := spine_layout_edge_cases.2.2.1 1600 900
      1000 800 (by norm_num) (by norm_num)
    exact ⟨r, e1, e2⟩⟩

end CozyBookshelf
